import Mathlib

/-!
Shallow embedding of the multi-port UDP↔CAN loopback ping-pong harness
(`udp_can_loopback_pingpong_multi.py`): the port multiplexer's mailbox
(`PortContext._rx_loop` / `PortContext.wait_for_packet`), the channel
tester's cycle (`ChannelTester.run` / `ChannelTester._wait_for_can_echo`)
and the per-channel statistics (`ChannelStats.record` / `snapshot`).

Bytes are modelled as `Nat`, byte strings as `List Nat`, the environment
responses of one tester cycle (socket results) as an explicit `CycleEnv`.
-/

namespace NetCanBridge

/-- `UDP_STRUCT = struct.Struct(">BI8s")` has size 13. -/
def UDP_STRUCT_size : Nat := 13

/-- `CAN_EFF_FLAG = 0x80000000`. -/
def CAN_EFF_FLAG : Nat := 0x80000000

/-- `CAN_EFF_MASK = 0x1FFFFFFF`. -/
def CAN_EFF_MASK : Nat := 0x1FFFFFFF

/-- One mailbox entry: the tuple `(packet, info, can_id, payload)` appended
by `_rx_loop` line 135. `packet` is the full received datagram. -/
structure UdpEntry where
  packet : List Nat
  info : Nat
  canId : Nat
  payload : List Nat
deriving DecidableEq, Repr

/-- `info` field of `UDP_STRUCT.unpack(packet[:13])`: byte 0. -/
def decodeInfo (p : List Nat) : Nat := p.getD 0 0

/-- `can_id` field of `UDP_STRUCT.unpack(packet[:13])`: big-endian u32 from
bytes 1..4. -/
def decodeCanId (p : List Nat) : Nat :=
  p.getD 1 0 * 16777216 + p.getD 2 0 * 65536 + p.getD 3 0 * 256 + p.getD 4 0

/-- `payload` field of `UDP_STRUCT.unpack(packet[:13])`: bytes 5..12. -/
def decodePayload (p : List Nat) : List Nat := (p.drop 5).take 8

/-- The tuple `_rx_loop` builds from a received packet (line 133/135). -/
def mkEntry (p : List Nat) : UdpEntry :=
  ⟨p, decodeInfo p, decodeCanId p, decodePayload p⟩

/-- `self._mailbox = defaultdict(deque)`: a finite map from identifier to a
FIFO queue, modelled as an association list with unique keys. -/
abbrev Mailbox := List (Nat × List UdpEntry)

/-- `self._mailbox[can_id].append(item)`: appends to the existing queue of
the key, or creates the key with a one-element queue (defaultdict). -/
def enqueue : Mailbox → Nat → UdpEntry → Mailbox
  | [], k, e => [(k, [e])]
  | (j, q) :: rest, k, e =>
    if j = k then (j, q ++ [e]) :: rest else (j, q) :: enqueue rest k e

/-- One iteration of `PortContext._rx_loop` on a received datagram
(lines 130-136): packets shorter than `UDP_STRUCT.size` are skipped
(`continue`), all others are unpacked from their first 13 bytes and
enqueued under the decoded identifier. -/
def rxStep (p : List Nat) (mb : Mailbox) : Mailbox :=
  if p.length < UDP_STRUCT_size then mb else enqueue mb (decodeCanId p) (mkEntry p)

/-- The dequeue step of `PortContext.wait_for_packet` (lines 142-147):
`queue = self._mailbox.get(can_id)`; if the queue exists and is non-empty,
pop its head, and delete the key when the queue becomes empty; otherwise
no entry is taken (the caller keeps waiting). -/
def dequeue : Mailbox → Nat → Option UdpEntry × Mailbox
  | [], _ => (none, [])
  | (j, q) :: rest, k =>
    if j = k then
      match q with
      | [] => (none, (j, q) :: rest)
      | e :: es => (some e, if es = [] then rest else (j, es) :: rest)
    else
      ((dequeue rest k).1, (j, q) :: (dequeue rest k).2)

/-- The queue stored under a key (empty when the key is absent). -/
def queueAt : Mailbox → Nat → List UdpEntry
  | [], _ => []
  | (j, q) :: rest, k => if j = k then q else queueAt rest k

/-- Python-dict invariant: keys occur at most once. -/
def keysNodup (mb : Mailbox) : Prop := (mb.map Prod.fst).Nodup

/-- Every entry is stored under the identifier decoded from it: the key
equals the entry's `canId` field. -/
def keyedInv (mb : Mailbox) : Prop := ∀ kq ∈ mb, ∀ e ∈ kq.2, e.canId = kq.1

/-- Every key present in the mailbox holds a non-empty queue. -/
def goodMailbox (mb : Mailbox) : Prop := ∀ kq ∈ mb, kq.2 ≠ []

instance (mb : Mailbox) : Decidable (keysNodup mb) :=
  inferInstanceAs (Decidable (mb.map Prod.fst).Nodup)

instance (mb : Mailbox) : Decidable (keyedInv mb) :=
  inferInstanceAs (Decidable (∀ kq ∈ mb, ∀ e ∈ kq.2, e.canId = kq.1))

instance (mb : Mailbox) : Decidable (goodMailbox mb) :=
  inferInstanceAs (Decidable (∀ kq ∈ mb, kq.2 ≠ []))

/-- One raw CAN frame as unpacked by `CAN_STRUCT.unpack` (line 261):
identifier word, declared length `dlc`, data bytes. -/
structure CanFrame where
  canId : Nat
  dlc : Nat
  data : List Nat
deriving DecidableEq, Repr

/-- The acceptance test of `_wait_for_can_echo` (lines 262-263):
`actual_id = can_id & CAN_EFF_MASK`, accept when it equals the expected
identifier and `data[:dlc] == expected_payload[:dlc]`. -/
def canEchoAccepts (expected_id : Nat) (expected_payload : List Nat) (f : CanFrame) : Bool :=
  decide (f.canId &&& CAN_EFF_MASK = expected_id) &&
    decide (f.data.take f.dlc = expected_payload.take f.dlc)

/-- `ChannelTester._wait_for_can_echo` over the finite sequence of frames
the CAN socket yields inside the 0.5 s budget: return `true` on the first
accepted frame, `false` when the budget elapses with none accepted. -/
def waitForCanEcho (expected_id : Nat) (expected_payload : List Nat) : List CanFrame → Bool
  | [] => false
  | f :: rest =>
    if canEchoAccepts expected_id expected_payload f then true
    else waitForCanEcho expected_id expected_payload rest

/-- The environment responses one cycle of `ChannelTester.run` observes:
whether `can_sock.send` succeeds, what `wait_for_packet` returns, whether
`send_to_bridge` succeeds, and the CAN frames readable during the echo
wait. -/
structure CycleEnv where
  canSendOk : Bool
  udpResp : Option UdpEntry
  udpEchoOk : Bool
  canFrames : List CanFrame

/-- Observable result of one cycle: the outcome string passed to
`stats.record`, whether `time.sleep(0.2)` ran before the next cycle, and
whether `send_to_bridge` was called. -/
structure CycleResult where
  outcome : String
  backoff : Bool
  echoAttempted : Bool
deriving DecidableEq, Repr

/-- One iteration of the `while` loop of `ChannelTester.run`
(lines 197-239), with the socket interactions read from `env`. -/
def runCycle (base_id : Nat) (payload : List Nat) (env : CycleEnv) : CycleResult :=
  if env.canSendOk = false then ⟨"send_error", true, false⟩
  else
    match env.udpResp with
    | none => ⟨"udp_timeout", false, false⟩
    | some r =>
      if r.canId ≠ base_id ∨ r.payload ≠ payload then ⟨"data_error", false, false⟩
      else if env.udpEchoOk = false then ⟨"send_error", false, true⟩
      else if waitForCanEcho base_id payload env.canFrames then ⟨"success", false, true⟩
      else ⟨"can_timeout", false, true⟩

/-- `ChannelStats` (lines 56-68). -/
structure ChannelStats where
  label : String
  id_min : Nat
  id_max : Nat
  total : Nat
  success : Nat
  udp_timeouts : Nat
  can_timeouts : Nat
  data_errors : Nat
  send_errors : Nat
  last_id : Nat
deriving DecidableEq, Repr

/-- `ChannelStats.__init__`: counters start at zero. -/
def initStats (label : String) (id_min id_max : Nat) : ChannelStats :=
  ⟨label, id_min, id_max, 0, 0, 0, 0, 0, 0, 0⟩

/-- `ChannelStats.record` (lines 70-83): bump `total`, store `last_id`,
bump the bucket matching the outcome string. -/
def record (s : ChannelStats) (outcome : String) (test_id : Nat) : ChannelStats :=
  let s1 := { s with total := s.total + 1, last_id := test_id }
  if outcome = "success" then { s1 with success := s1.success + 1 }
  else if outcome = "udp_timeout" then { s1 with udp_timeouts := s1.udp_timeouts + 1 }
  else if outcome = "can_timeout" then { s1 with can_timeouts := s1.can_timeouts + 1 }
  else if outcome = "data_error" then { s1 with data_errors := s1.data_errors + 1 }
  else if outcome = "send_error" then { s1 with send_errors := s1.send_errors + 1 }
  else s1

/-- The dictionary `ChannelStats.snapshot` returns (lines 85-98). -/
structure StatsSnapshot where
  label : String
  total : Nat
  success : Nat
  udp_timeouts : Nat
  can_timeouts : Nat
  data_errors : Nat
  send_errors : Nat
  last_id : Nat
  id_min : Nat
  id_max : Nat
deriving DecidableEq, Repr

/-- `ChannelStats.snapshot`: a field-for-field copy taken under the lock. -/
def snapshot (s : ChannelStats) : StatsSnapshot :=
  ⟨s.label, s.total, s.success, s.udp_timeouts, s.can_timeouts,
    s.data_errors, s.send_errors, s.last_id, s.id_min, s.id_max⟩

/-- The bookkeeping identity of the statistics. -/
def statsInv (s : ChannelStats) : Prop :=
  s.total = s.success + s.udp_timeouts + s.can_timeouts + s.data_errors + s.send_errors

/-- The closed outcome set the tester uses. -/
def validOutcome (o : String) : Prop :=
  o = "success" ∨ o = "udp_timeout" ∨ o = "can_timeout" ∨
    o = "data_error" ∨ o = "send_error"

instance (s : ChannelStats) : Decidable (statsInv s) :=
  inferInstanceAs (Decidable (s.total = s.success + s.udp_timeouts + s.can_timeouts
    + s.data_errors + s.send_errors))

instance (o : String) : Decidable (validOutcome o) :=
  inferInstanceAs (Decidable (o = "success" ∨ o = "udp_timeout" ∨ o = "can_timeout" ∨
    o = "data_error" ∨ o = "send_error"))

/-- A sequence of `record` calls. -/
def recordAll (s : ChannelStats) (calls : List (String × Nat)) : ChannelStats :=
  calls.foldl (fun a c => record a c.1 c.2) s

/-- Sample entry used to evaluate the theorems on concrete inputs: the
13-byte datagram `[0,0,0,0,5,1,2,3,4,5,6,7,8]` decodes to identifier 5
and payload `[1,2,3,4,5,6,7,8]`. -/
def sampleEntry : UdpEntry :=
  ⟨[0, 0, 0, 0, 5, 1, 2, 3, 4, 5, 6, 7, 8], 0, 5, [1, 2, 3, 4, 5, 6, 7, 8]⟩

/-- Sample one-key mailbox. -/
def sampleMailbox : Mailbox := [(5, [sampleEntry])]

/-! ### Mailbox lemmas -/

theorem enqueue_nil (k : Nat) (e : UdpEntry) : enqueue [] k e = [(k, [e])] := rfl

theorem enqueue_cons_hit (j : Nat) (q : List UdpEntry) (rest : Mailbox) (e : UdpEntry) :
    enqueue ((j, q) :: rest) j e = (j, q ++ [e]) :: rest := by
  simp [enqueue]

theorem enqueue_cons_miss (j k : Nat) (q : List UdpEntry) (rest : Mailbox) (e : UdpEntry)
    (h : j ≠ k) : enqueue ((j, q) :: rest) k e = (j, q) :: enqueue rest k e := by
  simp [enqueue, h]

theorem dequeue_nil (k : Nat) : dequeue [] k = (none, []) := rfl

theorem dequeue_cons_hit_nil (j : Nat) (rest : Mailbox) :
    dequeue ((j, ([] : List UdpEntry)) :: rest) j = (none, (j, ([] : List UdpEntry)) :: rest) := by
  simp [dequeue]

theorem dequeue_cons_hit (j : Nat) (e0 : UdpEntry) (es : List UdpEntry) (rest : Mailbox) :
    dequeue ((j, e0 :: es) :: rest) j
      = (some e0, if es = [] then rest else (j, es) :: rest) := by
  simp [dequeue]

theorem dequeue_cons_miss (j k : Nat) (q : List UdpEntry) (rest : Mailbox) (h : j ≠ k) :
    dequeue ((j, q) :: rest) k = ((dequeue rest k).1, (j, q) :: (dequeue rest k).2) := by
  simp [dequeue, h]

theorem queueAt_nil (k : Nat) : queueAt [] k = [] := rfl

theorem queueAt_cons_hit (j : Nat) (q : List UdpEntry) (rest : Mailbox) :
    queueAt ((j, q) :: rest) j = q := by
  simp [queueAt]

theorem queueAt_cons_miss (j k : Nat) (q : List UdpEntry) (rest : Mailbox) (h : j ≠ k) :
    queueAt ((j, q) :: rest) k = queueAt rest k := by
  simp [queueAt, h]

theorem queueAt_enqueue_self (mb : Mailbox) (k : Nat) (e : UdpEntry) :
    queueAt (enqueue mb k e) k = queueAt mb k ++ [e] := by
  induction mb with
  | nil => rw [enqueue_nil, queueAt_cons_hit, queueAt_nil, List.nil_append]
  | cons kq rest ih =>
    obtain ⟨j, q⟩ := kq
    by_cases h : j = k
    · subst h
      rw [enqueue_cons_hit, queueAt_cons_hit, queueAt_cons_hit]
    · rw [enqueue_cons_miss j k q rest e h, queueAt_cons_miss j k q _ h,
        queueAt_cons_miss j k q rest h, ih]

theorem queueAt_enqueue_ne (mb : Mailbox) (k i : Nat) (e : UdpEntry) (h : i ≠ k) :
    queueAt (enqueue mb k e) i = queueAt mb i := by
  induction mb with
  | nil => rw [enqueue_nil, queueAt_cons_miss k i [e] [] (Ne.symm h)]
  | cons kq rest ih =>
    obtain ⟨j, q⟩ := kq
    by_cases hj : j = k
    · subst hj
      rw [enqueue_cons_hit, queueAt_cons_miss j i _ rest (Ne.symm h),
        queueAt_cons_miss j i q rest (Ne.symm h)]
    · by_cases hji : j = i
      · subst hji
        rw [enqueue_cons_miss j k q rest e hj, queueAt_cons_hit, queueAt_cons_hit]
      · rw [enqueue_cons_miss j k q rest e hj, queueAt_cons_miss j i q _ hji,
          queueAt_cons_miss j i q rest hji, ih]

theorem keyedInv_tail {kq : Nat × List UdpEntry} {rest : Mailbox}
    (h : keyedInv (kq :: rest)) : keyedInv rest :=
  fun x hx => h x (List.mem_cons_of_mem _ hx)

theorem keyedInv_enqueue (mb : Mailbox) (k : Nat) (e : UdpEntry)
    (h : keyedInv mb) (he : e.canId = k) : keyedInv (enqueue mb k e) := by
  induction mb with
  | nil =>
    rw [enqueue_nil]
    intro kq hkq e' he'
    rw [List.mem_singleton] at hkq
    subst hkq
    replace he' : e' ∈ [e] := he'
    rw [List.mem_singleton] at he'
    subst he'
    exact he
  | cons kq rest ih =>
    obtain ⟨j, q⟩ := kq
    have hrest := keyedInv_tail h
    have hhead : ∀ e' ∈ q, e'.canId = j := h (j, q) (List.mem_cons_self _ _)
    by_cases hj : j = k
    · subst hj
      rw [enqueue_cons_hit]
      intro kq hkq e' he'
      rw [List.mem_cons] at hkq
      rcases hkq with rfl | hmem
      · replace he' : e' ∈ q ++ [e] := he'
        rw [List.mem_append, List.mem_singleton] at he'
        rcases he' with hq | rfl
        · exact hhead e' hq
        · exact he
      · exact hrest kq hmem e' he'
    · rw [enqueue_cons_miss j k q rest e hj]
      intro kq hkq e' he'
      rw [List.mem_cons] at hkq
      rcases hkq with rfl | hmem
      · exact hhead e' he'
      · exact ih hrest kq hmem e' he'

theorem keyedInv_rxStep (p : List Nat) (mb : Mailbox)
    (h : keyedInv mb) : keyedInv (rxStep p mb) := by
  unfold rxStep
  by_cases hlen : p.length < UDP_STRUCT_size
  · rwa [if_pos hlen]
  · rw [if_neg hlen]
    exact keyedInv_enqueue mb (decodeCanId p) (mkEntry p) h rfl

theorem dequeue_some_canId (mb : Mailbox) (k : Nat) (e : UdpEntry)
    (hinv : keyedInv mb) (h : (dequeue mb k).1 = some e) : e.canId = k := by
  induction mb with
  | nil => simp [dequeue_nil] at h
  | cons kq rest ih =>
    obtain ⟨j, q⟩ := kq
    by_cases hj : j = k
    · subst hj
      cases q with
      | nil => rw [dequeue_cons_hit_nil] at h; simp at h
      | cons e0 es =>
        rw [dequeue_cons_hit] at h
        replace h : some e0 = some e := h
        rw [Option.some.injEq] at h
        subst h
        exact hinv (j, e0 :: es) (List.mem_cons_self _ _) e0 (List.mem_cons_self _ _)
    · rw [dequeue_cons_miss j k q rest hj] at h
      exact ih (keyedInv_tail hinv) h

theorem keyedInv_dequeue (mb : Mailbox) (k : Nat)
    (hinv : keyedInv mb) : keyedInv (dequeue mb k).2 := by
  induction mb with
  | nil => rw [dequeue_nil]; exact hinv
  | cons kq rest ih =>
    obtain ⟨j, q⟩ := kq
    have hrest := keyedInv_tail hinv
    have hhead : ∀ e' ∈ q, e'.canId = j := hinv (j, q) (List.mem_cons_self _ _)
    by_cases hj : j = k
    · subst hj
      cases q with
      | nil => rw [dequeue_cons_hit_nil]; exact hinv
      | cons e0 es =>
        rw [dequeue_cons_hit]
        by_cases hes : es = []
        · subst hes
          rw [if_pos rfl]
          exact hrest
        · rw [if_neg hes]
          intro kq hkq e' he'
          rw [List.mem_cons] at hkq
          rcases hkq with rfl | hmem
          · exact hhead e' (List.mem_cons_of_mem _ he')
          · exact hrest kq hmem e' he'
    · rw [dequeue_cons_miss j k q rest hj]
      intro kq hkq e' he'
      rw [List.mem_cons] at hkq
      rcases hkq with rfl | hmem
      · exact hhead e' he'
      · exact ih hrest kq hmem e' he'

theorem queueAt_eq_nil_of_not_mem {mb : Mailbox} {k : Nat}
    (h : k ∉ mb.map Prod.fst) : queueAt mb k = [] := by
  induction mb with
  | nil => rfl
  | cons kq rest ih =>
    obtain ⟨j, q⟩ := kq
    rw [List.map_cons, List.mem_cons] at h
    push_neg at h
    rw [queueAt_cons_miss j k q rest (fun hjk : j = k => h.1 (hjk ▸ rfl)), ih h.2]

theorem dequeue_some_spec (mb : Mailbox) (k : Nat) (e : UdpEntry)
    (hnd : keysNodup mb) (h : (dequeue mb k).1 = some e) :
    queueAt mb k = e :: queueAt (dequeue mb k).2 k ∧
      ∀ i, i ≠ k → queueAt (dequeue mb k).2 i = queueAt mb i := by
  induction mb with
  | nil => simp [dequeue_nil] at h
  | cons kq rest ih =>
    obtain ⟨j, q⟩ := kq
    have hnd' : keysNodup rest := by
      have := List.nodup_cons.mp hnd
      exact this.2
    by_cases hj : j = k
    · subst hj
      cases q with
      | nil => rw [dequeue_cons_hit_nil] at h ⊢; simp at h
      | cons e0 es =>
        rw [dequeue_cons_hit] at h ⊢
        replace h : some e0 = some e := h
        rw [Option.some.injEq] at h
        subst h
        by_cases hes : es = []
        · subst hes
          have hnotin : j ∉ rest.map Prod.fst := (List.nodup_cons.mp hnd).1
          rw [if_pos rfl]
          refine ⟨?_, ?_⟩
          · rw [queueAt_cons_hit, queueAt_eq_nil_of_not_mem hnotin]
          · intro i hi
            rw [queueAt_cons_miss j i _ rest (fun hji : j = i => hi hji.symm)]
        · rw [if_neg hes]
          refine ⟨?_, ?_⟩
          · rw [queueAt_cons_hit, queueAt_cons_hit]
          · intro i hi
            rw [queueAt_cons_miss j i _ rest (fun hji : j = i => hi hji.symm),
              queueAt_cons_miss j i _ rest (fun hji : j = i => hi hji.symm)]
    · rw [dequeue_cons_miss j k q rest hj] at h ⊢
      obtain ⟨ih1, ih2⟩ := ih hnd' h
      refine ⟨?_, ?_⟩
      · rw [queueAt_cons_miss j k q rest hj, queueAt_cons_miss j k q _ hj]
        exact ih1
      · intro i hi
        by_cases hji : j = i
        · subst hji
          rw [queueAt_cons_hit, queueAt_cons_hit]
        · rw [queueAt_cons_miss j i q _ hji, queueAt_cons_miss j i q rest hji]
          exact ih2 i hi

theorem goodMailbox_tail {kq : Nat × List UdpEntry} {rest : Mailbox}
    (h : goodMailbox (kq :: rest)) : goodMailbox rest :=
  fun x hx => h x (List.mem_cons_of_mem _ hx)

theorem goodMailbox_enqueue (mb : Mailbox) (k : Nat) (e : UdpEntry)
    (h : goodMailbox mb) : goodMailbox (enqueue mb k e) := by
  induction mb with
  | nil =>
    rw [enqueue_nil]
    intro kq hkq
    rw [List.mem_singleton] at hkq
    subst hkq
    simp
  | cons kq rest ih =>
    obtain ⟨j, q⟩ := kq
    have hrest := goodMailbox_tail h
    have hhead : q ≠ [] := h (j, q) (List.mem_cons_self _ _)
    by_cases hj : j = k
    · subst hj
      rw [enqueue_cons_hit]
      intro kq hkq
      rw [List.mem_cons] at hkq
      rcases hkq with rfl | hmem
      · simp
      · exact hrest kq hmem
    · rw [enqueue_cons_miss j k q rest e hj]
      intro kq hkq
      rw [List.mem_cons] at hkq
      rcases hkq with rfl | hmem
      · exact hhead
      · exact ih hrest kq hmem

theorem goodMailbox_rxStep (p : List Nat) (mb : Mailbox)
    (h : goodMailbox mb) : goodMailbox (rxStep p mb) := by
  unfold rxStep
  by_cases hlen : p.length < UDP_STRUCT_size
  · rwa [if_pos hlen]
  · rw [if_neg hlen]
    exact goodMailbox_enqueue mb (decodeCanId p) (mkEntry p) h

theorem goodMailbox_dequeue (mb : Mailbox) (k : Nat)
    (h : goodMailbox mb) : goodMailbox (dequeue mb k).2 := by
  induction mb with
  | nil => rw [dequeue_nil]; exact h
  | cons kq rest ih =>
    obtain ⟨j, q⟩ := kq
    have hrest := goodMailbox_tail h
    have hhead : q ≠ [] := h (j, q) (List.mem_cons_self _ _)
    by_cases hj : j = k
    · subst hj
      cases q with
      | nil => rw [dequeue_cons_hit_nil]; exact h
      | cons e0 es =>
        rw [dequeue_cons_hit]
        by_cases hes : es = []
        · subst hes
          rw [if_pos rfl]
          exact hrest
        · rw [if_neg hes]
          intro kq hkq
          rw [List.mem_cons] at hkq
          rcases hkq with rfl | hmem
          · exact hes
          · exact hrest kq hmem
    · rw [dequeue_cons_miss j k q rest hj]
      intro kq hkq
      rw [List.mem_cons] at hkq
      rcases hkq with rfl | hmem
      · exact hhead
      · exact ih hrest kq hmem

/-! ### Statistics lemmas -/

theorem record_total (s : ChannelStats) (o : String) (i : Nat) :
    (record s o i).total = s.total + 1 := by
  unfold record
  split_ifs <;> rfl

theorem record_last_id (s : ChannelStats) (o : String) (i : Nat) :
    (record s o i).last_id = i := by
  unfold record
  split_ifs <;> rfl

theorem statsInv_record (s : ChannelStats) (o : String) (i : Nat)
    (hv : validOutcome o) (hs : statsInv s) : statsInv (record s o i) := by
  rcases hv with rfl | rfl | rfl | rfl | rfl <;>
    · simp only [statsInv] at hs
      simp [record, statsInv]
      omega

theorem recordAll_nil (s : ChannelStats) : recordAll s [] = s := rfl

theorem recordAll_cons (s : ChannelStats) (c : String × Nat) (cs : List (String × Nat)) :
    recordAll s (c :: cs) = recordAll (record s c.1 c.2) cs := rfl

theorem statsInv_recordAll (s : ChannelStats) (calls : List (String × Nat))
    (hs : statsInv s) (hv : ∀ c ∈ calls, validOutcome c.1) :
    statsInv (recordAll s calls) := by
  induction calls generalizing s with
  | nil => exact hs
  | cons c cs ih =>
    rw [recordAll_cons]
    exact ih _ (statsInv_record s c.1 c.2 (hv c (List.mem_cons_self _ _)) hs)
      (fun x hx => hv x (List.mem_cons_of_mem _ hx))

theorem recordAll_last_id (s : ChannelStats) (calls : List (String × Nat)) (c : String × Nat)
    (h : calls.getLast? = some c) : (recordAll s calls).last_id = c.2 := by
  induction calls generalizing s with
  | nil => simp at h
  | cons c0 cs ih =>
    rw [recordAll_cons]
    cases cs with
    | nil =>
      have hc : c0 = c := by simpa using h
      subst hc
      rw [recordAll_nil]
      exact record_last_id s c0.1 c0.2
    | cons c1 cs1 =>
      have h1 : (c1 :: cs1).getLast? = some c := by
        rwa [List.getLast?_cons_cons] at h
      exact ih (record s c0.1 c0.2) h1

/-! ### CAN echo wait lemmas -/

theorem waitForCanEcho_eq_true_iff (eid : Nat) (pl : List Nat) (fs : List CanFrame) :
    waitForCanEcho eid pl fs = true ↔
      ∃ f ∈ fs, f.canId &&& CAN_EFF_MASK = eid ∧ f.data.take f.dlc = pl.take f.dlc := by
  induction fs with
  | nil => simp [waitForCanEcho]
  | cons f rest ih =>
    simp only [waitForCanEcho]
    by_cases h : canEchoAccepts eid pl f = true
    · rw [if_pos h]
      have hp : f.canId &&& CAN_EFF_MASK = eid ∧ f.data.take f.dlc = pl.take f.dlc := by
        simpa [canEchoAccepts] using h
      exact iff_of_true rfl ⟨f, List.mem_cons_self _ _, hp⟩
    · rw [if_neg h, ih]
      constructor
      · rintro ⟨g, hg, hgp⟩
        exact ⟨g, List.mem_cons_of_mem _ hg, hgp⟩
      · rintro ⟨g, hg, hgp⟩
        rcases List.mem_cons.mp hg with rfl | hg1
        · exact absurd (by simpa [canEchoAccepts] using hgp) h
        · exact ⟨g, hg1, hgp⟩

/-! ### Cycle branch lemmas -/

theorem runCycle_can_send_fail (bid : Nat) (pl : List Nat) (env : CycleEnv)
    (h : env.canSendOk = false) :
    runCycle bid pl env = ⟨"send_error", true, false⟩ := by
  unfold runCycle
  rw [if_pos h]

theorem runCycle_data_error (bid : Nat) (pl : List Nat) (env : CycleEnv) (r : UdpEntry)
    (h1 : env.canSendOk = true) (h2 : env.udpResp = some r)
    (h3 : r.canId ≠ bid ∨ r.payload ≠ pl) :
    runCycle bid pl env = ⟨"data_error", false, false⟩ := by
  simp only [runCycle, h1, h2]
  rw [if_neg (by decide : ¬(true = false))]
  rw [if_pos h3]

theorem runCycle_udp_echo_fail (bid : Nat) (pl : List Nat) (env : CycleEnv) (r : UdpEntry)
    (h1 : env.canSendOk = true) (h2 : env.udpResp = some r)
    (h3 : r.canId = bid) (h4 : r.payload = pl) (h5 : env.udpEchoOk = false) :
    runCycle bid pl env = ⟨"send_error", false, true⟩ := by
  simp only [runCycle, h1, h2]
  rw [if_neg (by decide : ¬(true = false))]
  rw [if_neg (by push_neg; exact ⟨h3, h4⟩)]
  rw [if_pos h5]

theorem runCycle_echo_phase (bid : Nat) (pl : List Nat) (env : CycleEnv) (r : UdpEntry)
    (h1 : env.canSendOk = true) (h2 : env.udpResp = some r)
    (h3 : r.canId = bid) (h4 : r.payload = pl) (h5 : env.udpEchoOk = true) :
    runCycle bid pl env =
      if waitForCanEcho bid pl env.canFrames then ⟨"success", false, true⟩
      else ⟨"can_timeout", false, true⟩ := by
  simp only [runCycle, h1, h2]
  rw [if_neg (by decide : ¬(true = false))]
  rw [if_neg (by push_neg; exact ⟨h3, h4⟩)]
  rw [if_neg (by simp [h5])]

/-! ### Claim theorems -/

/-- C1, counterexample: the 14-byte datagram
`[8,0,0,0,5,1,2,3,4,5,6,7,8,255]` does not have length 13, yet the
receive loop enqueues it (only `len(packet) < 13` is discarded), so a
waiter for its decoded identifier 5 receives it instead of timing out. -/
theorem C1_oversize_datagram_enqueued_cex :
    ([8, 0, 0, 0, 5, 1, 2, 3, 4, 5, 6, 7, 8, 255] : List Nat).length ≠ 13 ∧
      (dequeue (rxStep [8, 0, 0, 0, 5, 1, 2, 3, 4, 5, 6, 7, 8, 255] ([] : Mailbox)) 5).1
        = some ⟨[8, 0, 0, 0, 5, 1, 2, 3, 4, 5, 6, 7, 8, 255], 8, 5, [1, 2, 3, 4, 5, 6, 7, 8]⟩ := by
  exact ⟨by decide, rfl⟩

/-- C1 (amended): an inbound datagram shorter than 13 bytes is treated as
malformed and discarded without enqueuing (the mailbox is unchanged, so a
waiter observes a timeout); a datagram of 13 bytes or more is decoded
from its first 13 bytes and appended to the mailbox queue of its decoded
identifier. -/
theorem C1_rx_size_gate (pshort plong : List Nat) (mb : Mailbox)
    (hs : pshort.length < 13) (hl : 13 ≤ plong.length) :
    rxStep pshort mb = mb ∧
      queueAt (rxStep plong mb) (decodeCanId plong)
        = queueAt mb (decodeCanId plong) ++ [mkEntry plong] := by
  constructor
  · unfold rxStep UDP_STRUCT_size
    rw [if_pos hs]
  · unfold rxStep UDP_STRUCT_size
    rw [if_neg (Nat.not_lt.mpr hl), queueAt_enqueue_self]

/-- C1 witness: the size gate evaluated on a 3-byte and a 14-byte datagram
over the empty mailbox. -/
theorem C1_rx_size_gate_witness :
    rxStep [1, 2, 3] ([] : Mailbox) = [] ∧
      queueAt (rxStep [8, 0, 0, 0, 5, 1, 2, 3, 4, 5, 6, 7, 8, 255] ([] : Mailbox))
          (decodeCanId [8, 0, 0, 0, 5, 1, 2, 3, 4, 5, 6, 7, 8, 255])
        = queueAt ([] : Mailbox) (decodeCanId [8, 0, 0, 0, 5, 1, 2, 3, 4, 5, 6, 7, 8, 255])
            ++ [mkEntry [8, 0, 0, 0, 5, 1, 2, 3, 4, 5, 6, 7, 8, 255]] :=
  C1_rx_size_gate [1, 2, 3] [8, 0, 0, 0, 5, 1, 2, 3, 4, 5, 6, 7, 8, 255] []
    (by decide) (by decide)

/-- C2: the receive loop keys every entry by the identifier decoded from
the entry itself, this keying is preserved by both mailbox operations, and
a successful `wait_for_packet` dequeue for identifier `k` only ever
returns an entry whose identifier is `k` — never one enqueued under a
different identifier. -/
theorem C2_no_cross_delivery (mb : Mailbox) (p : List Nat) (k : Nat) (e : UdpEntry)
    (hinv : keyedInv mb) (hdq : (dequeue mb k).1 = some e) :
    e.canId = k ∧ keyedInv (rxStep p mb) ∧ keyedInv (dequeue mb k).2 :=
  ⟨dequeue_some_canId mb k e hinv hdq, keyedInv_rxStep p mb hinv, keyedInv_dequeue mb k hinv⟩

/-- C2 witness: evaluated on the one-key sample mailbox. -/
theorem C2_no_cross_delivery_witness :
    sampleEntry.canId = 5 ∧ keyedInv (rxStep [1, 2, 3] sampleMailbox) ∧
      keyedInv (dequeue sampleMailbox 5).2 :=
  C2_no_cross_delivery sampleMailbox [1, 2, 3] 5 sampleEntry (by decide) (by decide)

/-- C3: a successful dequeue removes exactly the returned entry: the queue
under the requested identifier loses precisely its head (the returned
entry, whose occurrence count drops by one), every other identifier's
queue is untouched, so the removed entry can never be returned again by a
second `wait_for_packet` call on the resulting mailbox. -/
theorem C3_exactly_once_removal (mb : Mailbox) (k : Nat) (e : UdpEntry)
    (hnd : keysNodup mb) (hdq : (dequeue mb k).1 = some e) :
    queueAt mb k = e :: queueAt (dequeue mb k).2 k ∧
      (queueAt (dequeue mb k).2 k).count e + 1 = (queueAt mb k).count e ∧
      ∀ i, i ≠ k → queueAt (dequeue mb k).2 i = queueAt mb i := by
  obtain ⟨h1, h2⟩ := dequeue_some_spec mb k e hnd hdq
  refine ⟨h1, ?_, h2⟩
  rw [h1, List.count_cons_self]

/-- C3 witness: evaluated on the one-key sample mailbox. -/
theorem C3_exactly_once_removal_witness :
    queueAt sampleMailbox 5 = sampleEntry :: queueAt (dequeue sampleMailbox 5).2 5 ∧
      (queueAt (dequeue sampleMailbox 5).2 5).count sampleEntry + 1
        = (queueAt sampleMailbox 5).count sampleEntry :=
  ⟨(C3_exactly_once_removal sampleMailbox 5 sampleEntry (by decide) (by decide)).1,
    (C3_exactly_once_removal sampleMailbox 5 sampleEntry (by decide) (by decide)).2.1⟩

/-- C4: a cycle that reaches the UDP comparison (CAN send succeeded, a
datagram arrived) and sees a mismatching identifier or payload records
`data_error` — never `success` — and ends the cycle without echoing the
received datagram back (it is discarded, not retried). -/
theorem C4_data_mismatch_records_data_error (base_id : Nat) (payload : List Nat)
    (env : CycleEnv) (r : UdpEntry)
    (h1 : env.canSendOk = true) (h2 : env.udpResp = some r)
    (h3 : r.canId ≠ base_id ∨ r.payload ≠ payload) :
    (runCycle base_id payload env).outcome = "data_error" ∧
      (runCycle base_id payload env).outcome ≠ "success" ∧
      (runCycle base_id payload env).echoAttempted = false := by
  rw [runCycle_data_error base_id payload env r h1 h2 h3]
  exact ⟨rfl, by decide, rfl⟩

/-- C4 witness: a reply carrying identifier 6 instead of 5. -/
theorem C4_data_mismatch_records_data_error_witness :
    (runCycle 5 [1, 2, 3, 4, 5, 6, 7, 8]
        ⟨true, some ⟨[0, 0, 0, 0, 6, 1, 2, 3, 4, 5, 6, 7, 8], 0, 6, [1, 2, 3, 4, 5, 6, 7, 8]⟩,
          true, []⟩).outcome = "data_error" ∧
      (runCycle 5 [1, 2, 3, 4, 5, 6, 7, 8]
        ⟨true, some ⟨[0, 0, 0, 0, 6, 1, 2, 3, 4, 5, 6, 7, 8], 0, 6, [1, 2, 3, 4, 5, 6, 7, 8]⟩,
          true, []⟩).outcome ≠ "success" ∧
      (runCycle 5 [1, 2, 3, 4, 5, 6, 7, 8]
        ⟨true, some ⟨[0, 0, 0, 0, 6, 1, 2, 3, 4, 5, 6, 7, 8], 0, 6, [1, 2, 3, 4, 5, 6, 7, 8]⟩,
          true, []⟩).echoAttempted = false :=
  C4_data_mismatch_records_data_error 5 [1, 2, 3, 4, 5, 6, 7, 8] _
    ⟨[0, 0, 0, 0, 6, 1, 2, 3, 4, 5, 6, 7, 8], 0, 6, [1, 2, 3, 4, 5, 6, 7, 8]⟩
    rfl rfl (by decide)

/-- C5, counterexample: a cycle whose UDP echo send fails (matching reply
arrived, `send_to_bridge` raises) records `send_error` but does NOT back
off before the next cycle — `time.sleep(0.2)` runs only after a CAN send
failure — refuting the claim that every send failure is followed by a
backoff. -/
theorem C5_udp_echo_failure_no_backoff_cex :
    (runCycle 5 [1, 2, 3, 4, 5, 6, 7, 8]
        ⟨true, some ⟨[0, 0, 0, 0, 5, 1, 2, 3, 4, 5, 6, 7, 8], 0, 5, [1, 2, 3, 4, 5, 6, 7, 8]⟩,
          false, []⟩).outcome = "send_error" ∧
      (runCycle 5 [1, 2, 3, 4, 5, 6, 7, 8]
        ⟨true, some ⟨[0, 0, 0, 0, 5, 1, 2, 3, 4, 5, 6, 7, 8], 0, 5, [1, 2, 3, 4, 5, 6, 7, 8]⟩,
          false, []⟩).backoff = false :=
  ⟨rfl, rfl⟩

/-- C5 (amended): both send failures record `send_error` and abort the
cycle, but only the CAN transmit failure of step SEND_CAN is followed by
the 0.2 s backoff pause; a UDP echo failure in step SEND_UDP_ECHO starts
the next cycle immediately, with no backoff. -/
theorem C5_send_error_backoff (base_id : Nat) (payload : List Nat)
    (env1 env2 : CycleEnv) (r : UdpEntry)
    (h1 : env1.canSendOk = false)
    (h2 : env2.canSendOk = true) (h3 : env2.udpResp = some r)
    (h4 : r.canId = base_id) (h5 : r.payload = payload)
    (h6 : env2.udpEchoOk = false) :
    (runCycle base_id payload env1).outcome = "send_error" ∧
      (runCycle base_id payload env1).backoff = true ∧
      (runCycle base_id payload env2).outcome = "send_error" ∧
      (runCycle base_id payload env2).backoff = false := by
  rw [runCycle_can_send_fail base_id payload env1 h1,
    runCycle_udp_echo_fail base_id payload env2 r h2 h3 h4 h5 h6]
  exact ⟨rfl, rfl, rfl, rfl⟩

/-- C5 witness: a CAN-send failure and a UDP-echo failure evaluated on
concrete environments. -/
theorem C5_send_error_backoff_witness :
    (runCycle 5 [1, 2, 3, 4, 5, 6, 7, 8] ⟨false, none, true, []⟩).outcome = "send_error" ∧
      (runCycle 5 [1, 2, 3, 4, 5, 6, 7, 8] ⟨false, none, true, []⟩).backoff = true ∧
      (runCycle 5 [1, 2, 3, 4, 5, 6, 7, 8]
          ⟨true, some ⟨[0, 0, 0, 0, 5, 1, 2, 3, 4, 5, 6, 7, 8], 0, 5, [1, 2, 3, 4, 5, 6, 7, 8]⟩,
            false, []⟩).outcome = "send_error" ∧
      (runCycle 5 [1, 2, 3, 4, 5, 6, 7, 8]
          ⟨true, some ⟨[0, 0, 0, 0, 5, 1, 2, 3, 4, 5, 6, 7, 8], 0, 5, [1, 2, 3, 4, 5, 6, 7, 8]⟩,
            false, []⟩).backoff = false :=
  C5_send_error_backoff 5 [1, 2, 3, 4, 5, 6, 7, 8] ⟨false, none, true, []⟩ _
    ⟨[0, 0, 0, 0, 5, 1, 2, 3, 4, 5, 6, 7, 8], 0, 5, [1, 2, 3, 4, 5, 6, 7, 8]⟩
    rfl rfl rfl rfl rfl rfl

/-- C7: in a cycle that reaches AWAIT_CAN_ECHO (CAN send succeeded, a
matching UDP reply arrived, the echo send succeeded), the outcome is
`success` exactly when some received CAN frame matches — identifier equal
to the sent one after masking with `CAN_EFF_MASK`, payload equal after
truncating both sides to the frame's declared length — and `can_timeout`
exactly when no received frame matches within the budget. -/
theorem C7_can_echo_acceptance (base_id : Nat) (payload : List Nat)
    (env : CycleEnv) (r : UdpEntry)
    (h1 : env.canSendOk = true) (h2 : env.udpResp = some r)
    (h3 : r.canId = base_id) (h4 : r.payload = payload) (h5 : env.udpEchoOk = true) :
    ((runCycle base_id payload env).outcome = "success" ↔
        ∃ f ∈ env.canFrames, f.canId &&& CAN_EFF_MASK = base_id ∧
          f.data.take f.dlc = payload.take f.dlc) ∧
      ((runCycle base_id payload env).outcome = "can_timeout" ↔
        ¬ ∃ f ∈ env.canFrames, f.canId &&& CAN_EFF_MASK = base_id ∧
          f.data.take f.dlc = payload.take f.dlc) := by
  rw [runCycle_echo_phase base_id payload env r h1 h2 h3 h4 h5]
  by_cases hw : waitForCanEcho base_id payload env.canFrames = true
  · rw [if_pos hw]
    have hex := (waitForCanEcho_eq_true_iff base_id payload env.canFrames).mp hw
    exact ⟨iff_of_true rfl hex, iff_of_false (by decide) (not_not_intro hex)⟩
  · rw [if_neg hw]
    have hnotex : ¬ ∃ f ∈ env.canFrames, f.canId &&& CAN_EFF_MASK = base_id ∧
        f.data.take f.dlc = payload.take f.dlc :=
      fun hex => hw ((waitForCanEcho_eq_true_iff base_id payload env.canFrames).mpr hex)
    exact ⟨iff_of_false (by decide) hnotex, iff_of_true rfl hnotex⟩

/-- C7 witness: a matching echo frame with identifier 5 and full payload. -/
theorem C7_can_echo_acceptance_witness :
    ((runCycle 5 [1, 2, 3, 4, 5, 6, 7, 8]
        ⟨true, some ⟨[0, 0, 0, 0, 5, 1, 2, 3, 4, 5, 6, 7, 8], 0, 5, [1, 2, 3, 4, 5, 6, 7, 8]⟩,
          true, [⟨5, 8, [1, 2, 3, 4, 5, 6, 7, 8]⟩]⟩).outcome = "success" ↔
        ∃ f ∈ [(⟨5, 8, [1, 2, 3, 4, 5, 6, 7, 8]⟩ : CanFrame)],
          f.canId &&& CAN_EFF_MASK = 5 ∧
            f.data.take f.dlc = ([1, 2, 3, 4, 5, 6, 7, 8] : List Nat).take f.dlc) ∧
      ((runCycle 5 [1, 2, 3, 4, 5, 6, 7, 8]
        ⟨true, some ⟨[0, 0, 0, 0, 5, 1, 2, 3, 4, 5, 6, 7, 8], 0, 5, [1, 2, 3, 4, 5, 6, 7, 8]⟩,
          true, [⟨5, 8, [1, 2, 3, 4, 5, 6, 7, 8]⟩]⟩).outcome = "can_timeout" ↔
        ¬ ∃ f ∈ [(⟨5, 8, [1, 2, 3, 4, 5, 6, 7, 8]⟩ : CanFrame)],
          f.canId &&& CAN_EFF_MASK = 5 ∧
            f.data.take f.dlc = ([1, 2, 3, 4, 5, 6, 7, 8] : List Nat).take f.dlc) :=
  C7_can_echo_acceptance 5 [1, 2, 3, 4, 5, 6, 7, 8] _
    ⟨[0, 0, 0, 0, 5, 1, 2, 3, 4, 5, 6, 7, 8], 0, 5, [1, 2, 3, 4, 5, 6, 7, 8]⟩
    rfl rfl rfl rfl rfl

/-- C8: the non-empty-queue invariant of the mailbox is preserved by both
multiplexer operations: the receive step only creates a key together with
an entry, and the dequeue step prunes a key as soon as its queue becomes
empty. -/
theorem C8_mailbox_nonempty_invariant (mb : Mailbox) (p : List Nat) (k : Nat)
    (h : goodMailbox mb) : goodMailbox (rxStep p mb) ∧ goodMailbox (dequeue mb k).2 :=
  ⟨goodMailbox_rxStep p mb h, goodMailbox_dequeue mb k h⟩

/-- C8 witness: evaluated on the one-key sample mailbox. -/
theorem C8_mailbox_nonempty_invariant_witness :
    goodMailbox (rxStep [1, 2, 3] sampleMailbox) ∧
      goodMailbox (dequeue sampleMailbox 5).2 :=
  C8_mailbox_nonempty_invariant sampleMailbox [1, 2, 3] 5 (by decide)

/-- C9: over any sequence of `record` calls whose outcomes come from the
closed set, the statistics keep `total` equal to the sum of the five
outcome buckets, `last_id` equals the identifier of the most recent call,
and both facts are reflected in the snapshot of the resulting state. -/
theorem C9_stats_accounting (s : ChannelStats) (calls : List (String × Nat))
    (c : String × Nat)
    (hs : statsInv s) (hv : ∀ x ∈ calls, validOutcome x.1)
    (hl : calls.getLast? = some c) :
    statsInv (recordAll s calls) ∧
      (snapshot (recordAll s calls)).total
        = (snapshot (recordAll s calls)).success
          + (snapshot (recordAll s calls)).udp_timeouts
          + (snapshot (recordAll s calls)).can_timeouts
          + (snapshot (recordAll s calls)).data_errors
          + (snapshot (recordAll s calls)).send_errors ∧
      (snapshot (recordAll s calls)).last_id = c.2 := by
  have hinv := statsInv_recordAll s calls hs hv
  exact ⟨hinv, hinv, recordAll_last_id s calls c hl⟩

/-- C9 witness: two recorded cycles starting from a fresh channel. -/
theorem C9_stats_accounting_witness :
    statsInv (recordAll (initStats "vcan0" 0 2047) [("success", 7), ("udp_timeout", 9)]) ∧
      (snapshot (recordAll (initStats "vcan0" 0 2047)
        [("success", 7), ("udp_timeout", 9)])).last_id = 9 :=
  ⟨(C9_stats_accounting (initStats "vcan0" 0 2047) [("success", 7), ("udp_timeout", 9)]
      ("udp_timeout", 9) (by decide) (by decide) (by decide)).1,
    (C9_stats_accounting (initStats "vcan0" 0 2047) [("success", 7), ("udp_timeout", 9)]
      ("udp_timeout", 9) (by decide) (by decide) (by decide)).2.2⟩

/-- C10: any received CAN frame whose masked identifier equals the
expected one and whose declared length is 0 passes the echo acceptance
test regardless of its data bytes and of the original payload (both sides
are truncated to the frame's dlc before comparison), and its presence
among the received frames makes the echo wait succeed. -/
theorem C10_zero_dlc_frame_accepted (expected_id : Nat) (expected_payload : List Nat)
    (f : CanFrame) (fs : List CanFrame)
    (hid : f.canId &&& CAN_EFF_MASK = expected_id) (hdlc : f.dlc = 0) (hmem : f ∈ fs) :
    canEchoAccepts expected_id expected_payload f = true ∧
      waitForCanEcho expected_id expected_payload fs = true := by
  refine ⟨?_, ?_⟩
  · simp [canEchoAccepts, hid, hdlc]
  · exact (waitForCanEcho_eq_true_iff expected_id expected_payload fs).mpr
      ⟨f, hmem, hid, by simp [hdlc]⟩

/-- C10 witness: a dlc-0 frame with junk data against an 8-byte payload. -/
theorem C10_zero_dlc_frame_accepted_witness :
    canEchoAccepts 5 [1, 2, 3, 4, 5, 6, 7, 8] ⟨5, 0, [9, 9, 9]⟩ = true ∧
      waitForCanEcho 5 [1, 2, 3, 4, 5, 6, 7, 8] [⟨5, 0, [9, 9, 9]⟩] = true :=
  C10_zero_dlc_frame_accepted 5 [1, 2, 3, 4, 5, 6, 7, 8] ⟨5, 0, [9, 9, 9]⟩
    [⟨5, 0, [9, 9, 9]⟩] (by decide) rfl (List.mem_singleton.mpr rfl)

end NetCanBridge
